import Mathlib

/-!
Shallow embedding of the easy-vid-trainer core: the geometry engine
(`src/lib/video-utils.ts`), the video record lifecycle and upload/patch
API (`src/api/videos.ts`, `src/db/schema.ts`), the batch processor
(`processDataset` in the dataset API), and the progress projection
(`src/components/ProcessingPanelOld.tsx`).

JavaScript numbers are modelled as rationals; every value occurring in
the claims is exact in ℚ. `Math.round` is `⌊q + 1/2⌋`, which agrees
with JavaScript on every finite input. JavaScript truthiness of a JSON
number field is modelled on `Option`: the field is falsy when it is
absent or zero (JSON cannot carry NaN). Statuses and resolutions are
runtime strings, as in the JavaScript; the API code does not constrain
them, but the SQLite table created by `src/db/index.ts` carries CHECK
constraints on `status` and `resolution`, so a row update that writes a
value outside those enums makes the UPDATE statement throw — surfaced
by the route's catch as a 500 with no row modified. Resolution
components parsed by `Number` are integers (the split components of a
resolution string are integer strings; unparsable text is `none`, the
NaN outcome).
-/

namespace VidTrainer

/-- JavaScript `Math.round` on a finite rational: `⌊q + 1/2⌋`. -/
def jsRound (q : ℚ) : ℚ := (⌊q + 1/2⌋ : ℤ)

/-- Parse a string of decimal digits; `none` when the string is empty or
some character is not a digit (the NaN outcome of `Number`). -/
def parseDigits (cs : List Char) : Option ℕ :=
  if cs.isEmpty then none
  else cs.foldl (fun acc c =>
    acc.bind (fun n => if c.isDigit then some (n * 10 + (c.toNat - 48)) else none))
    (some 0)

/-- JavaScript `Number` on one split component: optional leading minus
sign followed by digits; `""` parses to `0`; otherwise NaN (`none`). -/
def jsNumber (cs : List Char) : Option ℤ :=
  match cs with
  | [] => some 0
  | c :: rest =>
    if c = '-' then (parseDigits rest).map (fun n => -(n : ℤ))
    else (parseDigits cs).map (fun n => (n : ℤ))

/-- `String.prototype.split` with a one-character separator. -/
def splitOnChar (sep : Char) : List Char → List (List Char)
  | [] => [[]]
  | c :: cs =>
    let r := splitOnChar sep cs
    if c = sep then [] :: r
    else
      match r with
      | [] => [[c]]
      | h :: t => (c :: h) :: t

/-- `resolution.split('x').map(Number)` destructured as `[rw, rh]`: the
first two components, `none` standing for NaN or `undefined`. -/
def parseResolution (s : String) : Option ℤ × Option ℤ :=
  let parts := splitOnChar 'x' s.data
  (match parts.head? with
   | none => none
   | some t => jsNumber t,
   match parts[1]? with
   | none => none
   | some t => jsNumber t)

/-- `computeCropSizeForResolution` from `src/lib/video-utils.ts`: the
largest rectangle with the resolution's aspect ratio inside the original
frame; the `if (!rw || !rh)` guard falls back to the full frame exactly
when a parsed component is absent, NaN or zero. -/
def computeCropSizeForResolution (resolution : String)
    (originalWidth originalHeight : ℚ) : ℚ × ℚ :=
  let p := parseResolution resolution
  match p.1, p.2 with
  | some rw, some rh =>
    if rw = 0 ∨ rh = 0 then (originalWidth, originalHeight)
    else
      let targetAspect := (rw : ℚ) / (rh : ℚ)
      let videoAspect := originalWidth / originalHeight
      if targetAspect > videoAspect then
        (originalWidth, jsRound (originalWidth / targetAspect))
      else
        (jsRound (originalHeight * targetAspect), originalHeight)
  | _, _ => (originalWidth, originalHeight)

/-- `isValidCrop` from `src/lib/video-utils.ts`. -/
def isValidCrop (cropX cropY cropWidth cropHeight
    originalWidth originalHeight : ℚ) : Bool :=
  decide (0 ≤ cropX) && decide (0 ≤ cropY) &&
  decide (cropX + cropWidth ≤ originalWidth) &&
  decide (cropY + cropHeight ≤ originalHeight)

/-- `centerCrop` from `src/lib/video-utils.ts`. -/
def centerCrop (cropWidth cropHeight originalWidth originalHeight : ℚ) :
    ℚ × ℚ :=
  (max 0 ((originalWidth - cropWidth) / 2),
   max 0 ((originalHeight - cropHeight) / 2))

/-- `constrainCrop` from `src/lib/video-utils.ts`. -/
def constrainCrop (cropX cropY cropWidth cropHeight
    originalWidth originalHeight : ℚ) : ℚ × ℚ :=
  let maxX := originalWidth - cropWidth
  let maxY := originalHeight - cropHeight
  (max 0 (min maxX cropX), max 0 (min maxY cropY))

/-- One row of the `videos` table (`src/db/schema.ts`). Numeric columns
are JavaScript numbers (ℚ); `status` and `resolution` are the stored
text, constrained only by the table's CHECK constraints
(`src/db/index.ts`), which are enforced at write time, not in the
record type. -/
structure VideoRec where
  id : ℕ
  datasetId : ℕ
  filename : String
  filepath : String
  duration : ℚ
  originalWidth : ℚ
  originalHeight : ℚ
  startTime : ℚ
  resolution : String
  cropX : ℚ
  cropY : ℚ
  cropWidth : ℚ
  cropHeight : ℚ
  fps : Option ℚ
  frameCount : Option ℚ
  status : String
deriving Repr

/-- Result of a successful `extractVideoMetadata` probe
(`src/lib/video-metadata.ts`). -/
structure VideoMetadata where
  duration : ℚ
  width : ℚ
  height : ℚ
  fps : Option ℚ
  frameCount : Option ℚ

/-- The record inserted by one iteration of the `uploadVideos` loop
(`src/api/videos.ts`): metadata on success, the fallback defaults
(duration 30, 1920×1080) when extraction failed; `startTime`,
`resolution`, `cropX`, `cropY` are omitted from the insert, so the
schema defaults of `src/db/schema.ts` apply; `cropWidth`/`cropHeight`
are set to the (possibly fallback) original dimensions. -/
def uploadRecord (id datasetId : ℕ) (filename filepath : String)
    (meta : Option VideoMetadata) : VideoRec :=
  let duration := match meta with | some m => m.duration | none => 30
  let originalWidth := match meta with | some m => m.width | none => 1920
  let originalHeight := match meta with | some m => m.height | none => 1080
  { id := id
    datasetId := datasetId
    filename := filename
    filepath := filepath
    duration := duration
    originalWidth := originalWidth
    originalHeight := originalHeight
    startTime := 0
    resolution := "1280x720"
    cropX := 0
    cropY := 0
    cropWidth := originalWidth
    cropHeight := originalHeight
    fps := match meta with | some m => m.fps | none => none
    frameCount := match meta with | some m => m.frameCount | none => none
    status := "pending" }

/-- Errors the API routes surface without modifying any record:
structural validation (400), missing id (404), and the catch-all 500 a
thrown exception — such as an SQLite CHECK constraint violation —
becomes. -/
inductive ApiError where
  | invalidConfig
  | notFound
  | serverError
deriving Repr, DecidableEq

/-- The JSON body of a `PATCH /videos/:id` request, one optional value
per `videos` column the request may carry. `updateVideo` passes the
parsed body straight to the row update with no validation of its own,
so the body may carry any column — including `status` — and only the
store's CHECK constraints stand between the value and the row. -/
structure VideoPatch where
  startTime : Option ℚ := none
  resolution : Option String := none
  cropX : Option ℚ := none
  cropY : Option ℚ := none
  cropWidth : Option ℚ := none
  cropHeight : Option ℚ := none
  status : Option String := none

/-- Overwrite exactly the columns the patch carries (`db.update.set`). -/
def applyPatch (p : VideoPatch) (v : VideoRec) : VideoRec :=
  { v with
    startTime := p.startTime.getD v.startTime
    resolution := p.resolution.getD v.resolution
    cropX := p.cropX.getD v.cropX
    cropY := p.cropY.getD v.cropY
    cropWidth := p.cropWidth.getD v.cropWidth
    cropHeight := p.cropHeight.getD v.cropHeight
    status := p.status.getD v.status }

/-- `UPDATE videos SET ... WHERE id = id`: rewrite every row whose `id`
matches. -/
def dbSet (db : List VideoRec) (id : ℕ) (f : VideoRec → VideoRec) :
    List VideoRec :=
  db.map (fun w => if w.id = id then f w else w)

/-- The `CHECK (status IN ('pending', 'processed', 'error'))` constraint
the `videos` table is created with (`src/db/index.ts`). -/
def checkStatus (s : String) : Bool :=
  s == "pending" || s == "processed" || s == "error"

/-- The `CHECK (resolution IN ('1280x720', '720x1280', '768x768'))`
constraint the `videos` table is created with (`src/db/index.ts`). -/
def checkResolution (r : String) : Bool :=
  r == "1280x720" || r == "720x1280" || r == "768x768"

/-- A row satisfies the `videos` table's CHECK constraints. -/
def rowChecks (v : VideoRec) : Bool :=
  checkStatus v.status && checkResolution v.resolution

/-- `updateVideo` from `src/api/videos.ts`: 404 when no row has the id,
otherwise apply the patch as-is — the route itself validates nothing.
The `UPDATE ... WHERE id = ?` rewrites every matching row; SQLite checks
each rewritten row against the table's CHECK constraints and aborts the
whole statement on a violation (no row modified), which the route's
catch turns into a 500 server error. -/
def updateVideo (db : List VideoRec) (id : ℕ) (p : VideoPatch) :
    Except ApiError (List VideoRec) :=
  match db.find? (fun v => v.id = id) with
  | none => .error .notFound
  | some _ =>
    if db.all (fun w => !(w.id == id) || rowChecks (applyPatch p w)) then
      .ok (dbSet db id (applyPatch p))
    else .error .serverError

/-- `String(n).padStart(4, '0')`. -/
def padStart4 (s : String) : String :=
  String.mk (List.replicate (4 - s.length) '0') ++ s

/-- The output filename the batch loop derives for the video at 0-based
position `i`: `vid_${String(i + 1).padStart(4, '0')}.mp4`. -/
def outputFilename (i : ℕ) : String :=
  "vid_" ++ padStart4 (Nat.repr (i + 1)) ++ ".mp4"

/-- The parsed JSON body of the batch trigger request; fields are absent
when the body omits them. -/
structure ProcessingConfig where
  fps : Option ℚ
  frameCount : Option ℚ

/-- JavaScript truthiness of a JSON number field (`config.fps`): falsy
exactly when absent or zero. -/
def truthy : Option ℚ → Bool
  | none => false
  | some q => decide (q ≠ 0)

/-- The summary `processDataset` returns. -/
structure BatchResult where
  message : String
  processedCount : ℕ
  totalVideos : ℕ
deriving Repr

/-- State carried through the batch loop: the videos table, the running
`processedCount`, and the trace of converter invocations, in order,
as (video id, output filename) pairs. -/
structure BatchState where
  db : List VideoRec
  cnt : ℕ
  trace : List (ℕ × String)

/-- The `pending` status write the loop issues before each conversion. -/
def markPending (w : VideoRec) : VideoRec := { w with status := "pending" }

/-- The success write: status `processed` plus the config's
fps/frameCount. -/
def markProcessed (cfg : ProcessingConfig) (w : VideoRec) : VideoRec :=
  { w with status := "processed", fps := cfg.fps, frameCount := cfg.frameCount }

/-- The failure write: status `error` only. -/
def markError (w : VideoRec) : VideoRec := { w with status := "error" }

/-- One iteration of the `processDataset` loop over the enumerated video
list: mark the row `pending`, invoke the converter (`ok i` tells whether
the external process exits 0 for position `i`), then mark the row
`processed` (persisting the config's fps/frameCount) or `error`. -/
def batchStep (cfg : ProcessingConfig) (ok : ℕ → Bool) (s : BatchState) :
    ℕ × VideoRec → BatchState
  | (i, v) =>
  let db1 := dbSet s.db v.id markPending
  if ok i then
    { db := dbSet db1 v.id (markProcessed cfg)
      cnt := s.cnt + 1
      trace := s.trace ++ [(v.id, outputFilename i)] }
  else
    { db := dbSet db1 v.id markError
      cnt := s.cnt
      trace := s.trace ++ [(v.id, outputFilename i)] }

/-- `processDataset` from the dataset API: reject a falsy `fps` or
`frameCount` (`!config.fps || !config.frameCount`) before anything else,
then 404 when the dataset does not exist, then run the loop over the
dataset's videos. We model the videos table restricted to this dataset,
so the dataset's video list `vids` is also the initial table state; the
external converter is the oracle `ok`. Returns the summary together with
the final table and the invocation trace. -/
def processDataset (cfg : ProcessingConfig)
    (dataset : Option (List VideoRec)) (ok : ℕ → Bool) :
    Except ApiError (BatchResult × List VideoRec × List (ℕ × String)) :=
  if truthy cfg.fps = false ∨ truthy cfg.frameCount = false then
    .error .invalidConfig
  else
    match dataset with
    | none => .error .notFound
    | some vids =>
      let s := vids.enum.foldl (batchStep cfg ok) ⟨vids, 0, []⟩
      .ok ({ message := "Processing completed. " ++ Nat.repr s.cnt ++ "/" ++
               Nat.repr vids.length ++ " videos processed successfully."
             processedCount := s.cnt
             totalVideos := vids.length },
           s.db, s.trace)

/-- The record the batch loop leaves behind for the video at position
`i`: `processed` with the config's fps/frameCount persisted when the
converter succeeded, `error` otherwise. -/
def finalVideo (cfg : ProcessingConfig) (ok : ℕ → Bool) (i : ℕ)
    (v : VideoRec) : VideoRec :=
  if ok i then markProcessed cfg v else markError v

/-- The operations reachable through the API that touch video rows:
uploading a file (with the metadata-extraction outcome), patching a
video, and triggering a batch run (with the converter oracle). -/
inductive Op where
  | upload (filename filepath : String) (meta : Option VideoMetadata)
  | patch (id : ℕ) (p : VideoPatch)
  | batch (cfg : ProcessingConfig) (ok : ℕ → Bool)

/-- Apply one operation to the videos table of a single dataset.
Uploads append a row with the autoincrement id (with no deletions,
SQLite assigns `length + 1`); patch and batch requests that fail leave
the table unchanged. -/
def applyOp (db : List VideoRec) : Op → List VideoRec
  | .upload filename filepath meta =>
      db ++ [uploadRecord (db.length + 1) 1 filename filepath meta]
  | .patch id p =>
      match updateVideo db id p with
      | .ok db' => db'
      | .error _ => db
  | .batch cfg ok =>
      match processDataset cfg (some db) ok with
      | .ok r => r.2.1
      | .error _ => db

/-- Run a sequence of operations against an initially empty dataset
table. -/
def applyOps (db : List VideoRec) (ops : List Op) : List VideoRec :=
  ops.foldl applyOp db

/-- An op is a batch trigger. -/
def Op.isBatch : Op → Bool
  | .batch _ _ => true
  | _ => false

/-- An op is a configuration patch that carries a `status` field. -/
def Op.patchesStatus : Op → Bool
  | .patch _ p => p.status.isSome
  | _ => false

/-- One entry of the `ProcessingProgress[]` snapshot
(`src/components/ProcessingPanelOld.tsx`). -/
structure ProgressEntry where
  videoId : ℕ
  progress : ℚ
  status : String
  message : String
deriving Repr

/-- The per-video mapping of the polling callback in `handleProcess`
(`ProcessingPanelOld.tsx`): switch on the persisted `video.status` with
the previous snapshot's entry for this video (found by id) supplying
continuity. `prev?.progress || 0` and `prev.message || '...'` are the
JavaScript falsy fallbacks, taken on zero and on the empty string. -/
def mapVideoProgress (prev : Option ProgressEntry) (v : VideoRec) :
    ProgressEntry :=
  if v.status = "processed" then
    { videoId := v.id, progress := 100, status := "completed",
      message := "Processing complete" }
  else if v.status = "error" then
    { videoId := v.id
      progress := match prev with
        | none => 0
        | some p => if p.progress = 0 then 0 else p.progress
      status := "error"
      message := "Processing failed" }
  else if v.status = "pending" then
    { videoId := v.id, progress := 75, status := "processing",
      message := "Processing video..." }
  else
    match prev with
    | some p =>
      if p.status = "processing" then
        { videoId := v.id, progress := p.progress, status := "processing",
          message := if p.message = "" then "Processing video..." else p.message }
      else
        { videoId := v.id, progress := 0, status := "idle", message := "" }
    | none => { videoId := v.id, progress := 0, status := "idle", message := "" }

/-- The whole-list projection: each video is mapped with the previous
snapshot entry found by `currentProgress.find(p => p.videoId === video.id)`. -/
def updateProgress (prevSnapshot : List ProgressEntry)
    (vids : List VideoRec) : List ProgressEntry :=
  vids.map (fun v =>
    mapVideoProgress (prevSnapshot.find? (fun p => p.videoId = v.id)) v)

/-- The instant-feedback snapshot `handleProcess` installs at batch
kickoff, before the first poll returns. -/
def initialProgress (vids : List VideoRec) : List ProgressEntry :=
  vids.map (fun v =>
    if v.status = "processed" then
      { videoId := v.id, progress := 100, status := "completed",
        message := "Already processed" }
    else
      { videoId := v.id, progress := 25, status := "processing",
        message := "Starting processing..." })

/-- A freshly uploaded video (metadata extraction failed, so the
fallback defaults apply), used as concrete input for witnesses. -/
def sampleVideo (i : ℕ) : VideoRec :=
  uploadRecord i 1 "clip.mp4" "uploads/1/clip.mp4" none

/-- A component of a parsed resolution string is JavaScript-falsy:
absent/NaN or zero. -/
def falsyComponent : Option ℤ → Bool
  | none => true
  | some z => decide (z = 0)

/-- C8: `constrainCrop` is the identity on valid crops: whenever
`isValidCrop x y w h W H` holds, `constrainCrop x y w h W H = (x, y)`. -/
theorem constrainCrop_valid_noop (x y w h W H : ℚ)
    (hv : isValidCrop x y w h W H = true) :
    constrainCrop x y w h W H = (x, y) := by
  simp only [isValidCrop, Bool.and_eq_true, decide_eq_true_eq] at hv
  obtain ⟨⟨⟨hx, hy⟩, hxw⟩, hyh⟩ := hv
  show (max 0 (min (W - w) x), max 0 (min (H - h) y)) = (x, y)
  rw [min_eq_right (by linarith : x ≤ W - w),
      min_eq_right (by linarith : y ≤ H - h),
      max_eq_right hx, max_eq_right hy]

/-- Witness for C8 at the concrete valid crop (10, 20, 100, 50) in a
1920×1080 frame. -/
theorem constrainCrop_valid_noop_witness :
    constrainCrop 10 20 100 50 1920 1080 = (10, 20) :=
  constrainCrop_valid_noop 10 20 100 50 1920 1080 (by norm_num [isValidCrop])

/-- C10: `constrainCrop` is total and never fails: it always returns
`(max 0 (min (W - w) x), max 0 (min (H - h) y))`; when the crop is wider
than the frame (`W < w`, so the clamp interval is empty) it returns
`x = 0` rather than an error, and the returned position still fails
`isValidCrop`. -/
theorem constrainCrop_total_clamp (x y w h W H : ℚ) :
    constrainCrop x y w h W H =
      (max 0 (min (W - w) x), max 0 (min (H - h) y)) ∧
    (W < w →
      (constrainCrop x y w h W H).1 = 0 ∧
      isValidCrop (constrainCrop x y w h W H).1 (constrainCrop x y w h W H).2
        w h W H = false) := by
  refine ⟨rfl, fun hw => ?_⟩
  have hm : min (W - w) x ≤ 0 :=
    le_trans (min_le_left _ _) (by linarith)
  have h1 : (constrainCrop x y w h W H).1 = 0 := by
    show max 0 (min (W - w) x) = 0
    exact max_eq_left hm
  refine ⟨h1, ?_⟩
  rw [h1]
  simp only [isValidCrop, Bool.and_eq_false_iff, decide_eq_false_iff_not, not_le]
  left
  right
  linarith

/-- Witness for C10 at a crop 2000 wide against a 1920-wide frame. -/
theorem constrainCrop_total_clamp_witness :
    (constrainCrop 5 5 2000 500 1920 1080).1 = 0 ∧
    isValidCrop (constrainCrop 5 5 2000 500 1920 1080).1
      (constrainCrop 5 5 2000 500 1920 1080).2 2000 500 1920 1080 = false :=
  (constrainCrop_total_clamp 5 5 2000 500 1920 1080).2 (by norm_num)

/-- C9: every record created by the upload loop satisfies the
crop-inside-frame invariant at creation: crop defaults cover the full
frame (`cropX = cropY = 0`, `cropWidth/Height = originalWidth/Height`),
`isValidCrop` holds, the status is `pending`, and this holds equally on
the metadata-extraction fallback (duration 30, 1920×1080). -/
theorem uploadRecord_valid_initial_crop (id datasetId : ℕ)
    (filename filepath : String) (meta : Option VideoMetadata) :
    (uploadRecord id datasetId filename filepath meta).cropX = 0 ∧
    (uploadRecord id datasetId filename filepath meta).cropY = 0 ∧
    (uploadRecord id datasetId filename filepath meta).cropWidth =
      (uploadRecord id datasetId filename filepath meta).originalWidth ∧
    (uploadRecord id datasetId filename filepath meta).cropHeight =
      (uploadRecord id datasetId filename filepath meta).originalHeight ∧
    isValidCrop (uploadRecord id datasetId filename filepath meta).cropX
      (uploadRecord id datasetId filename filepath meta).cropY
      (uploadRecord id datasetId filename filepath meta).cropWidth
      (uploadRecord id datasetId filename filepath meta).cropHeight
      (uploadRecord id datasetId filename filepath meta).originalWidth
      (uploadRecord id datasetId filename filepath meta).originalHeight = true ∧
    (uploadRecord id datasetId filename filepath meta).status = "pending" ∧
    (meta = none →
      (uploadRecord id datasetId filename filepath meta).duration = 30 ∧
      (uploadRecord id datasetId filename filepath meta).originalWidth = 1920 ∧
      (uploadRecord id datasetId filename filepath meta).originalHeight = 1080) := by
  cases meta <;> simp [uploadRecord, isValidCrop]

/-- Witness for C9 on the metadata-fallback upload. -/
theorem uploadRecord_valid_initial_crop_witness :
    (sampleVideo 1).status = "pending" ∧ (sampleVideo 1).duration = 30 ∧
    (sampleVideo 1).originalWidth = 1920 ∧ (sampleVideo 1).originalHeight = 1080 := by
  have h := uploadRecord_valid_initial_crop 1 1 "clip.mp4" "uploads/1/clip.mp4" none
  exact ⟨h.2.2.2.2.2.1, h.2.2.2.2.2.2 rfl⟩

/-- C5 (amended): for a resolution string parsing to positive components
`rw, rh` and positive original dimensions, `computeCropSizeForResolution`
returns the width-limited pair when `rw/rh > W/H` and the height-limited
pair otherwise; the full-frame fallback applies exactly when a parsed
component is JavaScript-falsy (absent, unparsable, or zero) — not for
negative components. Concretely, `768x768` on a 1920×1080 frame yields
(1080, 1080) and centering that crop yields (420, 0). -/
theorem computeCropSizeForResolution_spec :
    (∀ (s : String) (rw rh : ℤ) (W H : ℚ),
      parseResolution s = (some rw, some rh) → 0 < rw → 0 < rh →
      0 < W → 0 < H →
      computeCropSizeForResolution s W H =
        if (rw : ℚ) / rh > W / H then (W, jsRound (W / ((rw : ℚ) / rh)))
        else (jsRound (H * ((rw : ℚ) / rh)), H)) ∧
    (∀ (s : String) (W H : ℚ),
      falsyComponent (parseResolution s).1 = true ∨
      falsyComponent (parseResolution s).2 = true →
      computeCropSizeForResolution s W H = (W, H)) ∧
    computeCropSizeForResolution "768x768" 1920 1080 = (1080, 1080) ∧
    centerCrop 1080 1080 1920 1080 = (420, 0) := by
  refine ⟨?_, ?_, ?_, ?_⟩
  · intro s rw rh W H hp hrw hrh hW hH
    simp only [computeCropSizeForResolution, hp]
    rw [if_neg (by rintro (h | h) <;> omega)]
  · intro s W H h
    simp only [computeCropSizeForResolution]
    rcases h1 : (parseResolution s).1 with - | z1 <;>
      rcases h2 : (parseResolution s).2 with - | z2 <;>
      simp [h1, h2, falsyComponent] at h ⊢
    intro hz1 hz2
    rcases h with h | h
    · exact absurd h hz1
    · exact absurd h hz2
  · norm_num [computeCropSizeForResolution,
      show parseResolution "768x768" = (some 768, some 768) from by decide,
      jsRound]
  · norm_num [centerCrop]

/-- Witness for C5: `1280x720` on a 1000×1000 frame is width-limited,
giving height `round(1000/(1280/720)) = 563`. -/
theorem computeCropSizeForResolution_spec_witness :
    computeCropSizeForResolution "1280x720" 1000 1000 = (1000, 563) := by
  have h := computeCropSizeForResolution_spec.1 "1280x720" 1280 720 1000 1000
    (by decide) (by decide) (by decide) (by norm_num) (by norm_num)
  rw [h]
  norm_num [jsRound]

/-- C5 counterexample: the claim says every resolution string with a
non-positive parsed component falls back to the full original
dimensions, but `-2x2` parses to the negative component −2, passes the
falsy guard, and flows through the aspect computation, returning
(−1080, 1080) instead of (1920, 1080). -/
theorem computeCropSizeForResolution_negative_counterexample :
    parseResolution "-2x2" = (some (-2), some 2) ∧
    computeCropSizeForResolution "-2x2" 1920 1080 = (-1080, 1080) ∧
    computeCropSizeForResolution "-2x2" 1920 1080 ≠ (1920, 1080) := by
  refine ⟨by decide, ?_, ?_⟩ <;>
    norm_num [computeCropSizeForResolution,
      show parseResolution "-2x2" = (some (-2), some 2) from by decide,
      jsRound]

/-- C4: the per-video progress mapping is deterministic and total:
`processed` ↦ completed/100/"Processing complete"; `error` ↦ error with
the previous entry's progress (0 when absent) and "Processing failed";
`pending` ↦ processing/75/"Processing video..."; any other status
carries the previous processing entry forward, and otherwise maps to
idle/0. The final conjunct shows the carry-forward hypothesis that the
previous message is nonempty holds of every snapshot the reporter can
actually have produced (both the kickoff snapshot and every poll
result). -/
theorem mapVideoProgress_spec (v : VideoRec) (prev : Option ProgressEntry) :
    (v.status = "processed" → mapVideoProgress prev v =
      { videoId := v.id, progress := 100, status := "completed",
        message := "Processing complete" }) ∧
    (v.status = "error" → mapVideoProgress prev v =
      { videoId := v.id,
        progress := match prev with | none => 0 | some p => p.progress,
        status := "error", message := "Processing failed" }) ∧
    (v.status = "pending" → mapVideoProgress prev v =
      { videoId := v.id, progress := 75, status := "processing",
        message := "Processing video..." }) ∧
    (v.status ≠ "processed" → v.status ≠ "error" → v.status ≠ "pending" →
      ((∀ p, prev = some p → p.status = "processing" → p.message ≠ "" →
        mapVideoProgress prev v =
          { videoId := v.id, progress := p.progress, status := "processing",
            message := p.message }) ∧
       ((∀ p, prev = some p → p.status ≠ "processing") →
        mapVideoProgress prev v =
          { videoId := v.id, progress := 0, status := "idle", message := "" }))) ∧
    (∀ (snap : List ProgressEntry) (vids : List VideoRec),
      ∀ e ∈ updateProgress snap vids, e.status = "processing" → e.message ≠ "") ∧
    (∀ (vids : List VideoRec),
      ∀ e ∈ initialProgress vids, e.status = "processing" → e.message ≠ "") := by
  refine ⟨fun h => by simp [mapVideoProgress, h], fun h => ?_,
    fun h => by simp [mapVideoProgress, h], fun h1 h2 h3 => ⟨?_, ?_⟩, ?_, ?_⟩
  · cases prev with
    | none => simp [mapVideoProgress, h]
    | some p =>
      by_cases hp : p.progress = 0 <;> simp [mapVideoProgress, h, hp]
  · intro p hpeq hst hmsg
    subst hpeq
    simp [mapVideoProgress, h1, h2, h3, hst, hmsg]
  · intro hns
    cases prev with
    | none => simp [mapVideoProgress, h1, h2, h3]
    | some p => simp [mapVideoProgress, h1, h2, h3, hns p rfl]
  · intro snap vids e he hst
    simp only [updateProgress, List.mem_map] at he
    obtain ⟨w, -, rfl⟩ := he
    by_cases g1 : w.status = "processed"
    · simp [mapVideoProgress, g1] at hst
    by_cases g2 : w.status = "error"
    · simp [mapVideoProgress, g1, g2] at hst
    by_cases g3 : w.status = "pending"
    · simp [mapVideoProgress, g1, g2, g3]
    rcases hf : snap.find? (fun p => p.videoId = w.id) with - | p
    · simp [mapVideoProgress, g1, g2, g3, hf] at hst
    by_cases g4 : p.status = "processing"
    · by_cases g5 : p.message = "" <;>
        simp [mapVideoProgress, g1, g2, g3, hf, g4, g5]
    · simp [mapVideoProgress, g1, g2, g3, hf, g4] at hst
  · intro vids e he hst
    simp only [initialProgress, List.mem_map] at he
    obtain ⟨w, -, rfl⟩ := he
    by_cases g1 : w.status = "processed" <;> simp [g1] at hst ⊢

/-- Witness for C4: a `processed` video with no previous entry maps to
completed/100. -/
theorem mapVideoProgress_spec_witness :
    mapVideoProgress none { sampleVideo 1 with status := "processed" } =
      { videoId := 1, progress := 100, status := "completed",
        message := "Processing complete" } :=
  (mapVideoProgress_spec { sampleVideo 1 with status := "processed" } none).1 rfl

/-- C6 counterexample: `updateVideo` performs no field-by-field
validation. A patch carrying `status = "processed"` — a field outside
the configuration set, which the claim says must be rejected with a
validation error — passes the store's CHECK constraint, is accepted,
rewrites the record and changes its status. -/
theorem updateVideo_no_validation_counterexample :
    updateVideo [sampleVideo 1] 1 { status := some "processed" } =
      .ok [{ sampleVideo 1 with status := "processed" }] ∧
    (sampleVideo 1).status = "pending" :=
  ⟨rfl, rfl⟩

/-- C6 (amended): `updateVideo` itself validates nothing: whenever a row
with the id exists and the patched row satisfies the table's CHECK
constraints, any patch is accepted and applied as-is (`.set(updates)`),
including one that carries `status`; a missing row is rejected with
not-found; a patch whose rewritten row violates a CHECK constraint
(status or resolution outside the enum) makes the UPDATE throw,
surfaced as a 500 server error — not a structured validation error —
with no record modified. A patch that does not carry a `status` field
leaves every status unchanged. -/
theorem updateVideo_spec (db : List VideoRec) (id : ℕ) (p : VideoPatch) :
    ((∃ v ∈ db, v.id = id) →
      (∀ v ∈ db, v.id = id → rowChecks (applyPatch p v) = true) →
      updateVideo db id p = .ok (dbSet db id (applyPatch p)) ∧
      (p.status = none →
        (dbSet db id (applyPatch p)).map VideoRec.status =
          db.map VideoRec.status)) ∧
    ((∀ v ∈ db, v.id ≠ id) → updateVideo db id p = .error .notFound) ∧
    ((∃ v ∈ db, v.id = id) →
      (∃ v ∈ db, v.id = id ∧ rowChecks (applyPatch p v) = false) →
      updateVideo db id p = .error .serverError ∧
      updateVideo db id p ≠ .error .invalidConfig) := by
  refine ⟨?_, ?_, ?_⟩
  · rintro ⟨v, hv, hvid⟩ hchecks
    rcases hf : db.find? (fun w => w.id = id) with - | w
    · rw [List.find?_eq_none] at hf
      exact absurd (by simpa using hvid) (by simpa using hf v hv)
    · have hall : db.all
          (fun w => !(w.id == id) || rowChecks (applyPatch p w)) = true := by
        rw [List.all_eq_true]
        intro w hw
        by_cases hwid : w.id = id
        · simp [hwid, hchecks w hw hwid]
        · simp [hwid]
      refine ⟨by simp [updateVideo, hf, hall], fun hst => ?_⟩
      unfold dbSet
      rw [List.map_map]
      refine List.map_congr_left (fun w _ => ?_)
      by_cases hw : w.id = id <;> simp [hw, applyPatch, hst]
  · intro h
    have hf : db.find? (fun w => w.id = id) = none :=
      List.find?_eq_none.mpr (fun x hx => by simp [h x hx])
    simp [updateVideo, hf]
  · rintro ⟨v, hv, hvid⟩ ⟨u, hu, huid, hubad⟩
    rcases hf : db.find? (fun w => w.id = id) with - | w
    · rw [List.find?_eq_none] at hf
      exact absurd (by simpa using hvid) (by simpa using hf v hv)
    · have hall : ¬ db.all
          (fun w => !(w.id == id) || rowChecks (applyPatch p w)) = true := by
        rw [List.all_eq_true]
        intro hcontra
        have := hcontra u hu
        simp [huid, hubad] at this
      have hup : updateVideo db id p = .error .serverError := by
        simp only [updateVideo, hf]
        rw [if_neg hall]
      exact ⟨hup, by simp [hup]⟩

/-- Witness for C6 at a one-row table and a crop-only patch. -/
theorem updateVideo_spec_witness :
    updateVideo [sampleVideo 1] 1 { cropX := some 5 } =
      .ok (dbSet [sampleVideo 1] 1 (applyPatch { cropX := some 5 })) ∧
    (dbSet [sampleVideo 1] 1 (applyPatch { cropX := some 5 })).map
        VideoRec.status = [sampleVideo 1].map VideoRec.status := by
  have h := (updateVideo_spec [sampleVideo 1] 1 { cropX := some 5 }).1
    ⟨sampleVideo 1, by simp, rfl⟩
    (fun v hv _ => by rw [List.mem_singleton.mp hv]; rfl)
  exact ⟨h.1, h.2 rfl⟩

lemma map_guard_eq_self (i : ℕ) (f : VideoRec → VideoRec) :
    ∀ (l : List VideoRec), (∀ w ∈ l, w.id ≠ i) →
      l.map (fun w => if w.id = i then f w else w) = l := by
  intro l h
  induction l with
  | nil => rfl
  | cons a t ih =>
    simp only [List.map_cons, if_neg (h a (List.mem_cons_self a t))]
    rw [ih (fun w hw => h w (List.mem_cons_of_mem a hw))]

lemma dbSet_middle (pre post : List VideoRec) (v : VideoRec) (i : ℕ)
    (f : VideoRec → VideoRec) (hvi : v.id = i)
    (h1 : ∀ w ∈ pre, w.id ≠ i) (h2 : ∀ w ∈ post, w.id ≠ i) :
    dbSet (pre ++ v :: post) i f = pre ++ f v :: post := by
  unfold dbSet
  rw [List.map_append, map_guard_eq_self i f pre h1, List.map_cons,
      if_pos hvi, map_guard_eq_self i f post h2]

lemma batch_foldl (cfg : ProcessingConfig) (ok : ℕ → Bool) :
    ∀ (rest preOrig preFin : List VideoRec) (c : ℕ) (tr : List (ℕ × String)),
      preFin.map VideoRec.id = preOrig.map VideoRec.id →
      ((preOrig ++ rest).map VideoRec.id).Nodup →
      (rest.enumFrom preOrig.length).foldl (batchStep cfg ok)
          ⟨preFin ++ rest, c, tr⟩ =
        ⟨preFin ++ (rest.enumFrom preOrig.length).map
            (fun q => finalVideo cfg ok q.1 q.2),
         c + (List.range' preOrig.length rest.length).countP ok,
         tr ++ (rest.enumFrom preOrig.length).map
            (fun q => (q.2.id, outputFilename q.1))⟩ := by
  intro rest
  induction rest with
  | nil => intro preOrig preFin c tr hpre hnd; simp
  | cons v rest ih =>
    intro preOrig preFin c tr hpre hnd
    have hndid : (preOrig.map VideoRec.id ++ v.id :: rest.map VideoRec.id).Nodup := by
      simpa using hnd
    have h1 : ∀ w ∈ preFin, w.id ≠ v.id := by
      intro w hw
      have hmem : w.id ∈ preOrig.map VideoRec.id := by
        rw [← hpre]; exact List.mem_map_of_mem VideoRec.id hw
      have hd := List.disjoint_of_nodup_append hndid
      intro hcontra
      exact hd hmem (by simp [hcontra])
    have h2 : ∀ w ∈ rest, w.id ≠ v.id := by
      have hr := hndid.of_append_right
      rw [List.nodup_cons] at hr
      intro w hw hcontra
      exact hr.1 (hcontra ▸ List.mem_map_of_mem VideoRec.id hw)
    have hnd' : (((preOrig ++ [v]) ++ rest).map VideoRec.id).Nodup := by
      rw [List.append_assoc, List.singleton_append]; exact hnd
    have hpre' : (preFin ++ [finalVideo cfg ok preOrig.length v]).map VideoRec.id =
        (preOrig ++ [v]).map VideoRec.id := by
      rw [List.map_append, List.map_append, hpre]
      congr 1
      unfold finalVideo
      cases ok preOrig.length <;> simp [markProcessed, markError]
    have hstep : batchStep cfg ok ⟨preFin ++ v :: rest, c, tr⟩ (preOrig.length, v) =
        ⟨preFin ++ finalVideo cfg ok preOrig.length v :: rest,
         c + (if ok preOrig.length then 1 else 0),
         tr ++ [(v.id, outputFilename preOrig.length)]⟩ := by
      simp only [batchStep, finalVideo]
      rw [dbSet_middle preFin rest v v.id markPending rfl h1 h2]
      rw [dbSet_middle preFin rest (markPending v) v.id (markProcessed cfg)
            rfl h1 h2]
      rw [dbSet_middle preFin rest (markPending v) v.id markError rfl h1 h2]
      cases hok : ok preOrig.length <;>
        simp [hok, markPending, markProcessed, markError]
    rw [List.enumFrom_cons, List.foldl_cons, hstep, List.append_cons preFin]
    have hlen : (preOrig ++ [v]).length = preOrig.length + 1 := by simp
    have := ih (preOrig ++ [v]) (preFin ++ [finalVideo cfg ok preOrig.length v])
      (c + (if ok preOrig.length then 1 else 0))
      (tr ++ [(v.id, outputFilename preOrig.length)]) hpre' hnd'
    rw [hlen] at this
    rw [this]
    simp only [List.length_cons, List.range'_succ, List.countP_cons,
      List.map_cons, List.append_assoc, List.singleton_append,
      BatchState.mk.injEq]
    refine ⟨trivial, ?_, trivial⟩
    cases ok preOrig.length
    · simp
    · simp
      omega

lemma processDataset_run (cfg : ProcessingConfig) (vids : List VideoRec)
    (ok : ℕ → Bool) (hnd : (vids.map VideoRec.id).Nodup)
    (hf : truthy cfg.fps = true) (hc : truthy cfg.frameCount = true) :
    processDataset cfg (some vids) ok = .ok
      ({ message := "Processing completed. " ++
           Nat.repr ((List.range vids.length).countP ok) ++ "/" ++
           Nat.repr vids.length ++ " videos processed successfully.",
         processedCount := (List.range vids.length).countP ok,
         totalVideos := vids.length },
       vids.enum.map (fun q => finalVideo cfg ok q.1 q.2),
       vids.enum.map (fun q => (q.2.id, outputFilename q.1))) := by
  have h := batch_foldl cfg ok vids [] [] 0 [] rfl (by simpa using hnd)
  simp only [List.length_nil, List.nil_append] at h
  have henum : vids.enum = vids.enumFrom 0 := rfl
  unfold processDataset
  rw [hf, hc, if_neg (by simp)]
  simp only [henum, h, List.range_eq_range', Nat.zero_add]

lemma countP_true_add_false (ok : ℕ → Bool) (l : List ℕ) :
    l.countP ok + (l.filter (fun i => ok i = false)).length = l.length := by
  induction l with
  | nil => rfl
  | cons a t ih =>
    cases h : ok a <;> simp [List.countP_cons, List.filter_cons, h] at ih ⊢ <;>
      omega

/-- C1: for every dataset of N videos, valid config and converter
failure set F (as the oracle `ok`), `processDataset` attempts every
video (the invocation trace covers all N), returns
`processedCount = N − |F|` and `totalVideos = N`, and afterwards the
i-th video's status is `error` exactly when the converter failed there
and `processed` otherwise — no failure aborts the batch or rolls back
earlier successes. -/
theorem processDataset_batch_isolation (cfg : ProcessingConfig)
    (vids : List VideoRec) (ok : ℕ → Bool)
    (hnd : (vids.map VideoRec.id).Nodup)
    (hf : truthy cfg.fps = true) (hc : truthy cfg.frameCount = true) :
    ∃ res db' tr,
      processDataset cfg (some vids) ok = .ok (res, db', tr) ∧
      res.totalVideos = vids.length ∧
      res.processedCount = vids.length -
        ((List.range vids.length).filter (fun i => ok i = false)).length ∧
      db'.map VideoRec.status =
        (List.range vids.length).map
          (fun i => if ok i then "processed" else "error") ∧
      tr.length = vids.length := by
  refine ⟨_, _, _, processDataset_run cfg vids ok hnd hf hc, rfl, ?_, ?_, ?_⟩
  · show (List.range vids.length).countP ok = _
    have h := countP_true_add_false ok (List.range vids.length)
    rw [List.length_range] at h
    omega
  · show (vids.enum.map (fun q => finalVideo cfg ok q.1 q.2)).map
        VideoRec.status = _
    rw [List.map_map]
    have h1 : ∀ q ∈ vids.enum,
        (VideoRec.status ∘ fun q => finalVideo cfg ok q.1 q.2) q =
        ((fun i => if ok i then "processed" else "error") ∘ Prod.fst) q := by
      intro q _
      by_cases h : ok q.1 <;>
        simp [finalVideo, markProcessed, markError, h]
    rw [List.map_congr_left h1, ← List.map_map, List.enum_map_fst]
  · show (vids.enum.map _).length = _
    simp

/-- Witness for C1: three videos with the middle one failing give
`processedCount = 2` and statuses processed, error, processed. -/
theorem processDataset_batch_isolation_witness :
    ∃ res db' tr,
      processDataset ⟨some 16, some 81⟩
          (some [sampleVideo 1, sampleVideo 2, sampleVideo 3])
          (fun i => !(i == 1)) = .ok (res, db', tr) ∧
      res.totalVideos = 3 ∧ res.processedCount = 2 ∧
      db'.map VideoRec.status = ["processed", "error", "processed"] ∧
      tr.length = 3 := by
  obtain ⟨res, db', tr, h1, h2, h3, h4, h5⟩ :=
    processDataset_batch_isolation ⟨some 16, some 81⟩
      [sampleVideo 1, sampleVideo 2, sampleVideo 3] (fun i => !(i == 1))
      (by decide) (by decide) (by decide)
  refine ⟨res, db', tr, h1, h2, ?_, ?_, h5⟩
  · rw [h3]; decide
  · rw [h4]; decide

/-- C2 (amended): `processDataset` fails wholesale exactly when the
config is JavaScript-falsy (`fps`/`frameCount` absent or zero — not
"non-positive": negative values pass the `!config.fps` guard) or the
dataset does not exist; for positive fps/frameCount and an existing
dataset it always returns a summary, with failures recorded per video. -/
theorem processDataset_wholesale_spec (cfg : ProcessingConfig)
    (dataset : Option (List VideoRec)) (ok : ℕ → Bool) :
    ((∃ e, processDataset cfg dataset ok = .error e) ↔
      truthy cfg.fps = false ∨ truthy cfg.frameCount = false ∨
        dataset = none) ∧
    (∀ (q r : ℚ) (vids : List VideoRec),
      cfg.fps = some q → 0 < q → cfg.frameCount = some r → 0 < r →
      dataset = some vids →
      ∃ out, processDataset cfg dataset ok = .ok out) := by
  constructor
  · constructor
    · rintro ⟨e, he⟩
      by_cases h1 : truthy cfg.fps = false
      · exact .inl h1
      by_cases h2 : truthy cfg.frameCount = false
      · exact .inr (.inl h2)
      rcases dataset with - | vids
      · exact .inr (.inr rfl)
      · exfalso
        unfold processDataset at he
        rw [if_neg (by tauto)] at he
        simp at he
    · intro h
      unfold processDataset
      by_cases h1 : truthy cfg.fps = false
      · exact ⟨.invalidConfig, by rw [if_pos (.inl h1)]⟩
      by_cases h2 : truthy cfg.frameCount = false
      · exact ⟨.invalidConfig, by rw [if_pos (.inr h2)]⟩
      rcases h with h | h | h
      · exact absurd h h1
      · exact absurd h h2
      · subst h
        exact ⟨.notFound, by rw [if_neg (by tauto)]⟩
  · intro q r vids hq hq0 hr hr0 hds
    subst hds
    have hf : truthy cfg.fps = true := by
      rw [hq]; simpa [truthy] using ne_of_gt hq0
    have hc : truthy cfg.frameCount = true := by
      rw [hr]; simpa [truthy] using ne_of_gt hr0
    unfold processDataset
    rw [if_neg (by simp [hf, hc])]
    exact ⟨_, rfl⟩

/-- Witness for C2: a missing fps fails wholesale; 16/81 on an existing
empty dataset succeeds. -/
theorem processDataset_wholesale_spec_witness :
    (∃ e, processDataset ⟨none, some 81⟩ (some []) (fun _ => true) =
      .error e) ∧
    (∃ out, processDataset ⟨some 16, some 81⟩ (some []) (fun _ => true) =
      .ok out) :=
  ⟨(processDataset_wholesale_spec ⟨none, some 81⟩ (some [])
      (fun _ => true)).1.mpr (.inl rfl),
   (processDataset_wholesale_spec ⟨some 16, some 81⟩ (some [])
      (fun _ => true)).2 16 81 [] rfl (by norm_num) rfl (by norm_num) rfl⟩

/-- C2 counterexample: fps = −1 is non-positive, so the claim requires a
wholesale structural validation failure, but JavaScript `!(-1)` is
false: validation passes and the call returns a success summary. -/
theorem processDataset_negative_config_counterexample :
    processDataset ⟨some (-1), some 1⟩ (some []) (fun _ => true) =
      .ok ({ message :=
               "Processing completed. 0/0 videos processed successfully.",
             processedCount := 0, totalVideos := 0 }, [], []) := rfl

/-- C7 (amended): the batch iterates the dataset's videos sequentially
in persisted list order, and the output filename for the i-th video
(1-based) is the deterministic sequential name `vid_0001.mp4`,
`vid_0002.mp4`, … (prefix `vid_`, index zero-padded to 4 digits,
suffix `.mp4`): the invocation trace is exactly the enumerated list in
order with those names. -/
theorem processDataset_sequential_filenames (cfg : ProcessingConfig)
    (vids : List VideoRec) (ok : ℕ → Bool)
    (hnd : (vids.map VideoRec.id).Nodup)
    (hf : truthy cfg.fps = true) (hc : truthy cfg.frameCount = true) :
    ∃ res db',
      processDataset cfg (some vids) ok = .ok (res, db',
        vids.enum.map (fun q =>
          (q.2.id, "vid_" ++ padStart4 (Nat.repr (q.1 + 1)) ++ ".mp4"))) :=
  ⟨_, _, by simpa [outputFilename] using processDataset_run cfg vids ok hnd hf hc⟩

/-- Witness for C7 on a two-video dataset. -/
theorem processDataset_sequential_filenames_witness :
    ∃ res db',
      processDataset ⟨some 16, some 81⟩
        (some [sampleVideo 1, sampleVideo 2]) (fun _ => true) =
        .ok (res, db', [(1, "vid_0001.mp4"), (2, "vid_0002.mp4")]) := by
  obtain ⟨res, db', h⟩ := processDataset_sequential_filenames
    ⟨some 16, some 81⟩ [sampleVideo 1, sampleVideo 2] (fun _ => true)
    (by decide) (by decide) (by decide)
  refine ⟨res, db', ?_⟩
  rw [h]
  rfl

/-- C7 counterexample: the first derived output filename is
`vid_0001.mp4`, not `item_0001` as the claim states. -/
theorem outputFilename_prefix_counterexample :
    outputFilename 0 = "vid_0001.mp4" ∧
    outputFilename 0 ≠ "item_0001" ∧
    (∃ res db',
      processDataset ⟨some 16, some 81⟩ (some [sampleVideo 1])
        (fun _ => true) = .ok (res, db', [(1, "vid_0001.mp4")])) :=
  ⟨by decide, by decide, ⟨_, _, rfl⟩⟩

lemma dbSet_map_eq {α : Type} (db : List VideoRec) (i : ℕ)
    (f : VideoRec → VideoRec) (g : VideoRec → α)
    (hg : ∀ w, g (f w) = g w) : (dbSet db i f).map g = db.map g := by
  unfold dbSet
  rw [List.map_map]
  exact List.map_congr_left (fun w _ => by by_cases h : w.id = i <;> simp [h, hg])

lemma dbSet_length (db : List VideoRec) (i : ℕ) (f : VideoRec → VideoRec) :
    (dbSet db i f).length = db.length := by
  simp [dbSet]

lemma applyOp_inv (db : List VideoRec) (op : Op)
    (hid : db.map VideoRec.id = List.range' 1 db.length) :
    (applyOp db op).map VideoRec.id = List.range' 1 (applyOp db op).length ∧
    ((∀ v ∈ db, v.status = "pending" ∨ v.status = "processed" ∨
        v.status = "error") →
      ∀ v ∈ applyOp db op, v.status = "pending" ∨ v.status = "processed" ∨
        v.status = "error") ∧
    (op.isBatch = false → op.patchesStatus = false →
      (∀ v ∈ db, v.status = "pending") →
      ∀ v ∈ applyOp db op, v.status = "pending") := by
  cases op with
  | upload filename filepath meta =>
    simp only [applyOp]
    refine ⟨?_, ?_, ?_⟩
    · rw [List.map_append, hid]
      have h1 : [uploadRecord (db.length + 1) 1 filename filepath meta].map
          VideoRec.id = [db.length + 1] := by
        cases meta <;> simp [uploadRecord]
      rw [h1, show (db ++ [uploadRecord (db.length + 1) 1 filename filepath
        meta]).length = db.length + 1 from by simp, List.range'_concat]
      simp [Nat.add_comm]
    · intro hP v hv
      rcases List.mem_append.mp hv with h | h
      · exact hP v h
      · left
        rw [List.mem_singleton.mp h]
        cases meta <;> rfl
    · intro _ _ hpend v hv
      rcases List.mem_append.mp hv with h | h
      · exact hpend v h
      · rw [List.mem_singleton.mp h]
        cases meta <;> rfl
  | patch pid p =>
    rcases hfind : db.find? (fun v => v.id = pid) with - | w
    · have hup : updateVideo db pid p = .error .notFound := by
        simp [updateVideo, hfind]
      simp only [applyOp, hup]
      exact ⟨hid, fun hP => hP, fun _ _ hp' => hp'⟩
    · by_cases hall : db.all
          (fun w => !(w.id == pid) || rowChecks (applyPatch p w)) = true
      · have hup : updateVideo db pid p = .ok (dbSet db pid (applyPatch p)) := by
          simp only [updateVideo, hfind]
          rw [if_pos hall]
        simp only [applyOp, hup]
        refine ⟨?_, ?_, ?_⟩
        · rw [dbSet_map_eq db pid (applyPatch p) VideoRec.id (fun _ => rfl),
              dbSet_length, hid]
        · intro hP v hv
          rcases List.mem_map.mp hv with ⟨w', hw', rfl⟩
          by_cases h : w'.id = pid
          · have hc := List.all_eq_true.mp hall w' hw'
            have hrc : rowChecks (applyPatch p w') = true := by
              simpa [h] using hc
            have hcs : checkStatus (applyPatch p w').status = true := by
              simp only [rowChecks, Bool.and_eq_true] at hrc
              exact hrc.1
            rw [if_pos h]
            have hdis : ((applyPatch p w').status = "pending" ∨
                (applyPatch p w').status = "processed") ∨
                (applyPatch p w').status = "error" := by
              simpa [checkStatus] using hcs
            tauto
          · rw [if_neg h]
            exact hP w' hw'
        · intro _ hps hpend v hv
          have hnone : p.status = none := by
            cases hs : p.status with
            | none => rfl
            | some s => simp [Op.patchesStatus, hs] at hps
          rcases List.mem_map.mp hv with ⟨w', hw', rfl⟩
          by_cases h : w'.id = pid <;> simp only [h, if_pos, if_neg, if_true,
            applyPatch, hnone, Option.getD_none] <;> simpa using hpend w' hw'
      · have hup : updateVideo db pid p = .error .serverError := by
          simp only [updateVideo, hfind]
          rw [if_neg hall]
        simp only [applyOp, hup]
        exact ⟨hid, fun hP => hP, fun _ _ hp' => hp'⟩
  | batch cfg ok =>
    by_cases hval : truthy cfg.fps = true ∧ truthy cfg.frameCount = true
    · have hnd : (db.map VideoRec.id).Nodup := by
        rw [hid]; exact List.nodup_range' 1 db.length
      have hrun := processDataset_run cfg db ok hnd hval.1 hval.2
      simp only [applyOp, hrun]
      have hids : (db.enum.map (fun q => finalVideo cfg ok q.1 q.2)).map
          VideoRec.id = db.map VideoRec.id := by
        rw [List.map_map]
        have h1 : ∀ q ∈ db.enum,
            (VideoRec.id ∘ fun q => finalVideo cfg ok q.1 q.2) q =
            (VideoRec.id ∘ Prod.snd) q := by
          intro q _
          by_cases h : ok q.1 <;>
            simp [finalVideo, markProcessed, markError, h]
        rw [List.map_congr_left h1, ← List.map_map, List.enum_map_snd]
      refine ⟨?_, ?_, ?_⟩
      · rw [hids, show (db.enum.map (fun q => finalVideo cfg ok q.1 q.2)).length
          = db.length from by simp, hid]
      · intro _ v hv
        rcases List.mem_map.mp hv with ⟨q, -, rfl⟩
        by_cases h : ok q.1 <;>
          simp [finalVideo, markProcessed, markError, h]
      · intro habs
        simp [Op.isBatch] at habs
    · have herr : processDataset cfg (some db) ok = .error .invalidConfig := by
        unfold processDataset
        rw [if_pos]
        rcases not_and_or.mp hval with h | h
        · exact .inl (by simpa using h)
        · exact .inr (by simpa using h)
      simp only [applyOp, herr]
      exact ⟨hid, fun hP => hP, fun _ _ hp' => hp'⟩

/-- C3 (amended): over every reachable sequence of uploads,
configuration patches and batch runs, a video's status stays within
pending/processed/error — the store's CHECK constraint enforces the
enum even for patches that carry a `status` field — and for sequences
with no batch run whose patches do not carry `status`, every video is
still `pending`, i.e. `processed` and `error` are only reached via a
Batch Processor run. The status-free restriction on the second part is
forced: a patch carrying `status = "processed"` passes the CHECK
constraint and reaches that status with no batch run (see the
counterexample). -/
theorem status_transition_closure (ops : List Op) :
    (∀ v ∈ applyOps [] ops,
      v.status = "pending" ∨ v.status = "processed" ∨ v.status = "error") ∧
    ((∀ op ∈ ops, op.isBatch = false) →
      (∀ op ∈ ops, op.patchesStatus = false) →
      ∀ v ∈ applyOps [] ops, v.status = "pending") := by
  suffices h : ∀ (l : List Op) (db : List VideoRec),
      db.map VideoRec.id = List.range' 1 db.length →
      ((∀ v ∈ db, v.status = "pending" ∨ v.status = "processed" ∨
          v.status = "error") →
        ∀ v ∈ applyOps db l, v.status = "pending" ∨ v.status = "processed" ∨
          v.status = "error") ∧
      ((∀ op ∈ l, op.isBatch = false) → (∀ op ∈ l, op.patchesStatus = false) →
        (∀ v ∈ db, v.status = "pending") →
        ∀ v ∈ applyOps db l, v.status = "pending") by
    exact ⟨(h ops [] rfl).1 (by simp),
      fun hb hp => (h ops [] rfl).2 hb hp (by simp)⟩
  intro l
  induction l with
  | nil =>
    intro db _
    exact ⟨fun hP => hP, fun _ _ hp' => hp'⟩
  | cons op rest ih =>
    intro db hid
    have hop := applyOp_inv db op hid
    have hrest := ih (applyOp db op) hop.1
    constructor
    · intro hP
      exact hrest.1 (hop.2.1 hP)
    · intro hnb hps hpend
      exact hrest.2 (fun o ho => hnb o (List.mem_cons_of_mem op ho))
        (fun o ho => hps o (List.mem_cons_of_mem op ho))
        (hop.2.2 (hnb op (List.mem_cons_self op rest))
          (hps op (List.mem_cons_self op rest)) hpend)

/-- Witness for C3: after an upload followed by a batch run, the single
resulting record's status is still inside the enum. -/
theorem status_transition_closure_witness :
    (markProcessed ⟨some 16, some 81⟩
      (uploadRecord 1 1 "a.mp4" "uploads/1/a.mp4" none)).status = "pending" ∨
    (markProcessed ⟨some 16, some 81⟩
      (uploadRecord 1 1 "a.mp4" "uploads/1/a.mp4" none)).status = "processed" ∨
    (markProcessed ⟨some 16, some 81⟩
      (uploadRecord 1 1 "a.mp4" "uploads/1/a.mp4" none)).status = "error" := by
  have h := (status_transition_closure
    [Op.upload "a.mp4" "uploads/1/a.mp4" none,
     Op.batch ⟨some 16, some 81⟩ (fun _ => true)]).1
  refine h _ ?_
  rw [show applyOps [] [Op.upload "a.mp4" "uploads/1/a.mp4" none,
      Op.batch ⟨some 16, some 81⟩ (fun _ => true)] =
    [markProcessed ⟨some 16, some 81⟩
      (uploadRecord 1 1 "a.mp4" "uploads/1/a.mp4" none)] from rfl]
  exact List.mem_singleton.mpr rfl

/-- C3 counterexample: a configuration patch carrying
`status = "processed"` passes the store's CHECK constraint and reaches
`processed` without any Batch Processor run, contradicting the claim
that `processed` is only ever reached via a batch run. -/
theorem status_via_patch_counterexample :
    (applyOps [] [Op.upload "clip.mp4" "uploads/1/clip.mp4" none,
        Op.patch 1 { status := some "processed" }]).map VideoRec.status =
      ["processed"] ∧
    ∀ op ∈ [Op.upload "clip.mp4" "uploads/1/clip.mp4" none,
        Op.patch 1 { status := some "processed" }], op.isBatch = false := by
  refine ⟨rfl, ?_⟩
  intro op hop
  simp only [List.mem_cons, List.not_mem_nil, or_false] at hop
  rcases hop with rfl | rfl <;> rfl

end VidTrainer
